import Mathlib

/-!
# Verification of the crowded provider-fallback core

Shallow embedding of the provider abstraction, response normalization,
credential rotation and fallback orchestration of the `crowded` repository
(`src/lib/providers/base.ts`, `src/lib/providers/sambanova.ts`,
`src/lib/providers/bedrock.ts`, and the analyzer module).

JavaScript machine details modelled explicitly:
  * `x || d` on a number field treats `0` as falsy (`jsOrNum`);
    on a string field it treats `""` as falsy (`jsOrStr`).
  * `JSON.parse` is modelled by a fuel-based parser (`parseJson`) covering
    the JSON subset actually exchanged here: objects, arrays, strings with
    basic escapes, integer numbers, booleans and null.  Its engine-defined
    SyntaxError message is kept abstract (constructor `jsonParseFailed`).
  * the regex `/\x7b[\s\S]*\x7d/` used to extract the embedded JSON object
    is modelled by `extractJson` (first `{` to last `}`).
-/

namespace Crowded

/-- The valid congestion statuses, as listed in `validateResult`
(`base.ts`): `['empty', 'few people', 'moderate', 'full']`. -/
def validStatuses : List String := ["empty", "few people", "moderate", "full"]

/-- The raw object handed to `validateResult` (the `any`-typed result of
`JSON.parse`): each field is either absent / of the wrong type (`none`) or
present with the expected type (`some`). -/
structure RawResult where
  status : Option String
  capacity : Option Int
  confidence : Option Int
  reasoning : Option String
deriving Repr, DecidableEq

/-- The Result Contract (`AnalysisResult` in `base.ts`). -/
structure AnalysisResult where
  status : String
  capacity : Int
  confidence : Int
  reasoning : String
deriving Repr, DecidableEq

/-- JavaScript `x || d` for a numeric field: `d` when the field is absent
or `0` (both falsy), the value otherwise. -/
def jsOrNum (x : Option Int) (d : Int) : Int :=
  match x with
  | none => d
  | some v => if v = 0 then d else v

/-- JavaScript `x || d` for a string field: `d` when the field is absent
or the empty string (both falsy), the value otherwise. -/
def jsOrStr (x : Option String) (d : String) : String :=
  match x with
  | none => d
  | some v => if v = "" then d else v

/-- `BaseAIProvider.validateResult` (`base.ts` lines 68-77):
status passed through when in `validStatuses`, else `'moderate'`;
`capacity := Math.min(150, Math.max(0, result.capacity || 50))`;
`confidence := Math.min(100, Math.max(0, result.confidence || 70))`;
`reasoning := result.reasoning || 'Analysis completed'`. -/
def validateResult (r : RawResult) : AnalysisResult :=
  { status :=
      match r.status with
      | some s => if validStatuses.contains s then s else "moderate"
      | none => "moderate",
    capacity := min 150 (max 0 (jsOrNum r.capacity 50)),
    confidence := min 100 (max 0 (jsOrNum r.confidence 70)),
    reasoning := jsOrStr r.reasoning "Analysis completed" }

/-! ## JSON values and a fuel-based model of `JSON.parse` -/

/-- JSON values, as produced by `JSON.parse`. -/
inductive Json where
  | str (s : String)
  | num (n : Int)
  | jbool (b : Bool)
  | null
  | arr (elems : List Json)
  | obj (fields : List (String × Json))
deriving Repr

/-- Skip JSON whitespace. -/
def skipWs : List Char → List Char
  | [] => []
  | c :: cs => if c = ' ' ∨ c = '\n' ∨ c = '\t' ∨ c = '\r' then skipWs cs else c :: cs

/-- Basic JSON string escapes. -/
def escChar (c : Char) : Option Char :=
  if c = '"' then some '"'
  else if c = '\\' then some '\\'
  else if c = '/' then some '/'
  else if c = 'n' then some '\n'
  else if c = 't' then some '\t'
  else if c = 'r' then some '\r'
  else none

/-- Parse the body of a JSON string (opening quote already consumed),
returning the decoded string and the remaining input. -/
def parseStrBody : Nat → List Char → Option (String × List Char)
  | 0, _ => none
  | _ + 1, [] => none
  | fuel + 1, c :: cs =>
    if c = '"' then some ("", cs)
    else if c = '\\' then
      match cs with
      | [] => none
      | e :: cs2 =>
        match escChar e, parseStrBody fuel cs2 with
        | some r, some (s, rest) => some (String.mk (r :: s.data), rest)
        | _, _ => none
    else
      match parseStrBody fuel cs with
      | some (s, rest) => some (String.mk (c :: s.data), rest)
      | none => none

/-- Accumulate a run of decimal digits. -/
def parseDigitsAux : List Char → Nat → Nat × List Char
  | [], acc => (acc, [])
  | c :: cs, acc =>
    if c.isDigit then parseDigitsAux cs (acc * 10 + (c.toNat - 48)) else (acc, c :: cs)

/-- Parse a JSON integer (optional minus sign, one or more digits). -/
def parseNum : List Char → Option (Int × List Char)
  | [] => none
  | c :: cs =>
    if c = '-' then
      match cs with
      | [] => none
      | d :: _ =>
        if d.isDigit then
          let (n, rest) := parseDigitsAux cs 0
          some (-(Int.ofNat n), rest)
        else none
    else if c.isDigit then
      let (n, rest) := parseDigitsAux (c :: cs) 0
      some (Int.ofNat n, rest)
    else none

mutual

/-- Parse one JSON value, returning it and the remaining input. -/
def parseValue : Nat → List Char → Option (Json × List Char)
  | 0, _ => none
  | fuel + 1, cs =>
    match skipWs cs with
    | [] => none
    | c :: rest =>
      if c = '"' then
        match parseStrBody (rest.length + 1) rest with
        | some (s, r) => some (Json.str s, r)
        | none => none
      else if c = '\x7b' then parseObj fuel rest
      else if c = '[' then parseArr fuel rest
      else if c = 't' then
        match rest with
        | 'r' :: 'u' :: 'e' :: r => some (Json.jbool true, r)
        | _ => none
      else if c = 'f' then
        match rest with
        | 'a' :: 'l' :: 's' :: 'e' :: r => some (Json.jbool false, r)
        | _ => none
      else if c = 'n' then
        match rest with
        | 'u' :: 'l' :: 'l' :: r => some (Json.null, r)
        | _ => none
      else
        match parseNum (c :: rest) with
        | some (n, r) => some (Json.num n, r)
        | none => none

/-- Parse an object (opening brace already consumed). -/
def parseObj : Nat → List Char → Option (Json × List Char)
  | 0, _ => none
  | fuel + 1, cs =>
    match skipWs cs with
    | '\x7d' :: rest => some (Json.obj [], rest)
    | cs2 => parseMembers fuel cs2

/-- Parse one or more `"key": value` members of an object. -/
def parseMembers : Nat → List Char → Option (Json × List Char)
  | 0, _ => none
  | fuel + 1, cs =>
    match skipWs cs with
    | '"' :: rest =>
      match parseStrBody (rest.length + 1) rest with
      | some (key, r1) =>
        match skipWs r1 with
        | ':' :: r2 =>
          match parseValue fuel r2 with
          | some (v, r3) =>
            match skipWs r3 with
            | ',' :: r4 =>
              match parseMembers fuel r4 with
              | some (Json.obj fs, r5) => some (Json.obj ((key, v) :: fs), r5)
              | _ => none
            | '\x7d' :: r4 => some (Json.obj [(key, v)], r4)
            | _ => none
          | none => none
        | _ => none
      | none => none
    | _ => none

/-- Parse an array (opening bracket already consumed). -/
def parseArr : Nat → List Char → Option (Json × List Char)
  | 0, _ => none
  | fuel + 1, cs =>
    match skipWs cs with
    | ']' :: rest => some (Json.arr [], rest)
    | cs2 => parseElems fuel cs2

/-- Parse one or more array elements. -/
def parseElems : Nat → List Char → Option (Json × List Char)
  | 0, _ => none
  | fuel + 1, cs =>
    match parseValue fuel cs with
    | some (v, r1) =>
      match skipWs r1 with
      | ',' :: r2 =>
        match parseElems fuel r2 with
        | some (Json.arr vs, r3) => some (Json.arr (v :: vs), r3)
        | _ => none
      | ']' :: r2 => some (Json.arr [v], r2)
      | _ => none
    | none => none

end

/-- `JSON.parse`: parse a complete JSON document (one value, possibly
surrounded by whitespace); `none` models a thrown SyntaxError. -/
def parseJson (s : String) : Option Json :=
  match parseValue (s.length + 1) s.data with
  | some (v, rest) => if skipWs rest = [] then some v else none
  | none => none

/-- Index of the first character satisfying `p`. -/
def firstIdx (p : Char → Bool) : List Char → Option Nat
  | [] => none
  | c :: cs => if p c then some 0 else (firstIdx p cs).map (· + 1)

/-- Index of the last character satisfying `p`. -/
def lastIdx (p : Char → Bool) (cs : List Char) : Option Nat :=
  (firstIdx p cs.reverse).map (fun k => cs.length - 1 - k)

/-- The greedy brace-to-brace extraction `text.match(/\x7b[\s\S]*\x7d/)`
(`sambanova.ts` line 122, `bedrock.ts` line 73): the substring from the
first `{` to the last `}`, when the first `{` comes before the last `}`;
`none` when the regex does not match. -/
def extractJson (text : String) : Option String :=
  match firstIdx (fun c => c = '\x7b') text.data with
  | none => none
  | some i =>
    match lastIdx (fun c => c = '\x7d') text.data with
    | none => none
    | some j =>
      if i < j then some (String.mk ((text.data.drop i).take (j - i + 1))) else none

/-- JavaScript property access `fields[k]` on a parsed object. -/
def jsonField : List (String × Json) → String → Option Json
  | [], _ => none
  | (k, v) :: fs, key => if k = key then some v else jsonField fs key

/-- View a parsed JSON value as the raw object handed to `validateResult`:
`result.status` is a string or not, `result.capacity` / `result.confidence`
numbers or not, `result.reasoning` a string or not. -/
def toRawResult (j : Json) : RawResult :=
  match j with
  | Json.obj fs =>
    { status := match jsonField fs "status" with | some (Json.str s) => some s | _ => none,
      capacity := match jsonField fs "capacity" with | some (Json.num n) => some n | _ => none,
      confidence := match jsonField fs "confidence" with | some (Json.num n) => some n | _ => none,
      reasoning := match jsonField fs "reasoning" with | some (Json.str s) => some s | _ => none }
  | _ => { status := none, capacity := none, confidence := none, reasoning := none }

/-- The ways a provider's `analyzeImage` can fail.  `extractFailed` is the
thrown `Error('Failed to extract JSON from response')`; `jsonParseFailed`
is the SyntaxError thrown by `JSON.parse`, whose engine-defined message
differs from the extract-failure message.  The provider's catch block
re-wraps either message with a provider-name prefix. -/
inductive ProviderError where
  | notConfigured
  | transport (msg : String)
  | extractFailed
  | jsonParseFailed
deriving Repr, DecidableEq

/-- The extract-parse-normalize tail of `analyzeImage`
(`sambanova.ts` lines 121-136, `bedrock.ts` lines 72-87): brace-to-brace
extraction, `JSON.parse`, then `validateResult`. -/
def parseProviderResponse (text : String) : Except ProviderError AnalysisResult :=
  match extractJson text with
  | none => Except.error ProviderError.extractFailed
  | some js =>
    match parseJson js with
    | none => Except.error ProviderError.jsonParseFailed
    | some j => Except.ok (validateResult (toRawResult j))

/-! ## SambaNova credential rotation -/

/-- The mutable state of a `SambaNovaProvider`: its credential pool and the
rotation pointer `currentKeyIndex`. -/
structure SNState where
  apiKeys : List String
  currentKeyIndex : Nat
deriving Repr, DecidableEq

/-- `SambaNovaProvider.rotateKey` (`sambanova.ts` lines 71-81): returns the
index of the credential to use for this request and advances the pointer by
one, wrapping modulo the pool size. -/
def rotateKey (s : SNState) : Nat × SNState :=
  (s.currentKeyIndex,
   { s with currentKeyIndex := (s.currentKeyIndex + 1) % s.apiKeys.length })

/-- `SambaNovaProvider.isConfigured`: `this.apiKeys.length > 0`. -/
def snIsConfigured (s : SNState) : Bool := decide (0 < s.apiKeys.length)

/-- `SambaNovaProvider.analyzeImage` (`sambanova.ts` lines 87-99 and
121-136).  The remote completion call is abstracted by an oracle `net`
mapping the credential index used to either the backend's response text or
a transport failure.  Returns the call's outcome and the updated state. -/
def snAnalyzeImage (s : SNState) (net : Nat → Except String String) :
    Except ProviderError AnalysisResult × SNState :=
  if snIsConfigured s then
    let (idx, s') := rotateKey s
    match net idx with
    | Except.error e => (Except.error (ProviderError.transport e), s')
    | Except.ok text => (parseProviderResponse text, s')
  else (Except.error ProviderError.notConfigured, s)

/-- The credential indices used by a sequence of `analyzeImage` calls
(each call with its own network oracle), threading the provider state. -/
def usedKeys : SNState → List (Nat → Except String String) → List Nat
  | _, [] => []
  | s, net :: nets =>
    if snIsConfigured s then (rotateKey s).1 :: usedKeys (snAnalyzeImage s net).2 nets
    else usedKeys (snAnalyzeImage s net).2 nets

/-! ## Analyzer: registry, initialization, fallback orchestration -/

/-- One instantiated provider as the analyzer sees it: name, model, the
two availability flags, and its `analyzeImage` behaviour on a given image
(success with a result, or failure with an error message). -/
structure ProviderInst where
  name : String
  model : String
  isConfigured : Bool
  isEnabled : Bool
  analyze : String → Except String AnalysisResult

/-- `PROVIDER_REGISTRY[k]`: JavaScript object lookup on the registry,
modelled as an association list in insertion order. -/
def lookupReg : List (String × ProviderInst) → String → Option ProviderInst
  | [], _ => none
  | (k, p) :: rest, key => if k = key then some p else lookupReg rest key

/-- The filter `provider.isConfigured() && provider.isEnabled()`. -/
def usable (p : ProviderInst) : Bool := p.isConfigured && p.isEnabled

/-- First section of `initializeProviders`: the primary provider, when it
is registered and usable. -/
def primaryPhase (reg : List (String × ProviderInst)) (primaryName : String) :
    List ProviderInst :=
  match lookupReg reg primaryName with
  | some p => if usable p then [p] else []
  | none => []

/-- Second section of `initializeProviders`: the explicit fallback
provider, when set, distinct from the primary, registered and usable. -/
def fallbackPhase (reg : List (String × ProviderInst)) (primaryName : String)
    (fallbackName : Option String) : List ProviderInst :=
  match fallbackName with
  | none => []
  | some fb =>
    if fb = primaryName then []
    else
      match lookupReg reg fb with
      | some p => if usable p then [p] else []
      | none => []

/-- The loop guard `name !== primaryName && name !== fallbackName`. -/
def otherMatches (primaryName : String) (fallbackName : Option String) (nm : String) : Bool :=
  nm ≠ primaryName && (match fallbackName with | some fb => nm ≠ fb | none => true)

/-- Third section of `initializeProviders`: every remaining registered,
usable provider, in registry insertion order. -/
def otherPhase (reg : List (String × ProviderInst)) (primaryName : String)
    (fallbackName : Option String) : List ProviderInst :=
  (reg.filter (fun kv => otherMatches primaryName fallbackName kv.1 && usable kv.2)).map Prod.snd

/-- The ordered provider list assembled by `initializeProviders`. -/
def buildProviderList (reg : List (String × ProviderInst)) (primaryName : String)
    (fallbackName : Option String) : List ProviderInst :=
  primaryPhase reg primaryName ++ fallbackPhase reg primaryName fallbackName ++
    otherPhase reg primaryName fallbackName

/-- `initializeProviders` (analyzer module): assembles the ordered list and
throws when it is empty (`Except.error` models the thrown `Error`). -/
def initializeProviders (reg : List (String × ProviderInst)) (primaryName : String)
    (fallbackName : Option String) : Except String (List ProviderInst) :=
  let ps := buildProviderList reg primaryName fallbackName
  if ps.isEmpty then
    Except.error "No AI providers configured. Please set up at least one provider in .env.local"
  else Except.ok ps

/-- The degraded result returned when every provider fails: status
`moderate`, capacity 50, confidence 0, reasoning the prefixed
semicolon-joined `provider: message` summary. -/
def degradedResult (errors : List (String × String)) : AnalysisResult :=
  { status := "moderate", capacity := 50, confidence := 0,
    reasoning := "All providers failed. Errors: " ++
      String.intercalate "; " (errors.map (fun pe => pe.1 ++ ": " ++ pe.2)) }

/-- The provider loop of `analyzeCarriageImage`, carrying the accumulated
`errors` array; also returns the names of the providers actually invoked,
in invocation order. -/
def runProviders (img : String) : List ProviderInst → List (String × String) →
    AnalysisResult × List String
  | [], errors => (degradedResult errors, [])
  | p :: rest, errors =>
    match p.analyze img with
    | Except.ok r => (r, [p.name])
    | Except.error e =>
      let (res, tr) := runProviders img rest (errors ++ [(p.name, e)])
      (res, p.name :: tr)

/-- `analyzeCarriageImage` together with the invocation trace. -/
def analyzeWithTrace (ps : List ProviderInst) (img : String) :
    AnalysisResult × List String :=
  runProviders img ps []

/-- `analyzeCarriageImage` (analyzer module, lines 291-329): try each
provider of the ordered list in turn, return the first success, and return
the degraded result when all fail. -/
def analyzeCarriageImage (ps : List ProviderInst) (img : String) : AnalysisResult :=
  (analyzeWithTrace ps img).1

/-! ## Auxiliary definitions used by the verification -/

/-- The error message recorded by the analyzer for a failing provider. -/
def errMsg (img : String) (p : ProviderInst) : String :=
  match p.analyze img with
  | Except.error e => e
  | Except.ok _ => ""

/-- The Result Contract of the spec: a valid status, capacity in
`[0, 150]`, confidence in `[0, 100]` (the reasoning field is a string by
construction). -/
def validContract (a : AnalysisResult) : Prop :=
  a.status ∈ validStatuses ∧ 0 ≤ a.capacity ∧ a.capacity ≤ 150 ∧
    0 ≤ a.confidence ∧ a.confidence ≤ 100

/-- View an `AnalysisResult` as the raw object handed to `validateResult`
(every field present with its typed value). -/
def toRaw (a : AnalysisResult) : RawResult :=
  { status := some a.status, capacity := some a.capacity,
    confidence := some a.confidence, reasoning := some a.reasoning }

/-- The response text has a substring beginning at its first `{` and
ending at its last `}`: some `{` occurs strictly before some `}`. -/
def hasBraceSpan (text : String) : Prop :=
  ∃ i j, i < j ∧ text.data.get? i = some '\x7b' ∧ text.data.get? j = some '\x7d'

/-- The well-formed backend JSON object of the round-trip property. -/
def jsonLit : String :=
  "\x7b\"status\":\"full\",\"capacity\":120,\"confidence\":90,\"reasoning\":\"crowded\"\x7d"

/-! ## Concrete fixtures -/

/-- Fixture: a provider that always fails with message `timeout`. -/
def fxTimeout : ProviderInst :=
  { name := "P1", model := "m1", isConfigured := true, isEnabled := true,
    analyze := fun _ => Except.error "timeout" }

/-- Fixture: a provider that always fails with message `bad key`. -/
def fxBadKey : ProviderInst :=
  { name := "P2", model := "m2", isConfigured := true, isEnabled := true,
    analyze := fun _ => Except.error "bad key" }

/-- Fixture: primary provider that always fails. -/
def fxP1 : ProviderInst :=
  { name := "P1", model := "m1", isConfigured := true, isEnabled := true,
    analyze := fun _ => Except.error "boom" }

/-- Fixture: the result returned by the fallback provider. -/
def fxP2res : AnalysisResult :=
  { status := "few people", capacity := 40, confidence := 80, reasoning := "ok" }

/-- Fixture: explicit fallback provider that always succeeds. -/
def fxP2 : ProviderInst :=
  { name := "P2", model := "m2", isConfigured := true, isEnabled := true,
    analyze := fun _ => Except.ok fxP2res }

/-- Fixture: registry-only provider, never reached. -/
def fxP3 : ProviderInst :=
  { name := "P3", model := "m3", isConfigured := true, isEnabled := true,
    analyze := fun _ => Except.ok { status := "empty", capacity := 10, confidence := 99, reasoning := "p3" } }

/-- Fixture registry: `p3` registered first so that registry order differs
from the configured priority order. -/
def fxReg : List (String × ProviderInst) := [("p3", fxP3), ("p1", fxP1), ("p2", fxP2)]

/-- Fixture: an unconfigured provider. -/
def fxUnconfigured : ProviderInst :=
  { name := "U", model := "m", isConfigured := false, isEnabled := true,
    analyze := fun _ => Except.error "unreachable" }

/-- Fixture: a usable provider registered under `q1`. -/
def fxQ1 : ProviderInst :=
  { name := "Q1", model := "m", isConfigured := true, isEnabled := true,
    analyze := fun _ => Except.ok fxP2res }

/-- Fixture registry whose only provider is unconfigured. -/
def fxRegU : List (String × ProviderInst) := [("u", fxUnconfigured)]

/-- Fixture registry with one usable provider under key `q1`. -/
def fxRegQ : List (String × ProviderInst) := [("q1", fxQ1)]

end Crowded

namespace Crowded

/-- C3 counterexample: on input capacity `0`, the code's `capacity || 50`
treats `0` as falsy and yields `50`, while the claim's formula
`max(0, min(150, capacity ?? 50))` yields `0`. -/
theorem validateResult_capacity_zero_cex :
    (validateResult ⟨none, some 0, none, none⟩).capacity = 50 ∧
    max 0 (min 150 ((some (0 : Int)).getD 50)) = 0 := by
  constructor
  · rfl
  · decide

/-- C3 (amended): the capacity produced by `validateResult` is
`max(0, min(150, c))` where `c` is the input capacity when present and
nonzero, and `50` otherwise; input `200` yields `150`, `-10` yields `0`,
`0` yields `50`, absent yields `50`. -/
theorem validateResult_capacity_clamp (r : RawResult) :
    (validateResult r).capacity = max 0 (min 150 (jsOrNum r.capacity 50)) ∧
    (validateResult ⟨none, some 200, none, none⟩).capacity = 150 ∧
    (validateResult ⟨none, some (-10), none, none⟩).capacity = 0 ∧
    (validateResult ⟨none, some 0, none, none⟩).capacity = 50 ∧
    (validateResult ⟨none, none, none, none⟩).capacity = 50 := by
  refine ⟨?_, rfl, rfl, rfl, rfl⟩
  show min 150 (max 0 (jsOrNum r.capacity 50)) = max 0 (min 150 (jsOrNum r.capacity 50))
  omega

/-- C4: `validateResult` passes a status through unchanged when it is one
of the four valid values, and yields `moderate` for every other or missing
status value. -/
theorem validateResult_status_cases (r : RawResult) :
    (∀ s, r.status = some s → s ∈ validStatuses → (validateResult r).status = s) ∧
    (∀ s, r.status = some s → s ∉ validStatuses → (validateResult r).status = "moderate") ∧
    (r.status = none → (validateResult r).status = "moderate") := by
  refine ⟨?_, ?_, ?_⟩
  · intro s hs hmem
    simp only [validateResult, hs]
    rw [if_pos (List.elem_iff.mpr hmem)]
  · intro s hs hmem
    simp only [validateResult, hs]
    rw [if_neg (fun hc => hmem (List.elem_iff.mp hc))]
  · intro hs
    simp only [validateResult, hs]

/-- C4 witness: a valid status (`full`) passes through; a malformed status
and a missing status both yield `moderate`. -/
theorem validateResult_status_cases_witness :
    (validateResult ⟨some "full", none, none, none⟩).status = "full" ∧
    (validateResult ⟨some "garbage", none, none, none⟩).status = "moderate" ∧
    (validateResult ⟨none, none, none, none⟩).status = "moderate" :=
  ⟨(validateResult_status_cases _).1 "full" rfl (by decide),
   (validateResult_status_cases _).2.1 "garbage" rfl (by decide),
   (validateResult_status_cases _).2.2 rfl⟩

/-- C9 counterexample: the already-valid result with status `moderate`,
capacity `0`, confidence `70` and reasoning `ok` satisfies the Result
Contract, but `validateResult` maps its capacity `0` to `50`, so the
output differs from the input. -/
theorem validateResult_not_idempotent_cex :
    validContract ⟨"moderate", 0, 70, "ok"⟩ ∧
    validateResult (toRaw ⟨"moderate", 0, 70, "ok"⟩) ≠ ⟨"moderate", 0, 70, "ok"⟩ := by
  constructor
  · simp only [validContract]
    decide
  · decide

/-- C9 (amended): `validateResult` is the identity on every result that
satisfies the Result Contract and additionally has nonzero capacity,
nonzero confidence and nonempty reasoning (the code's `||` defaults
rewrite the falsy values `0` and `""`). -/
theorem validateResult_idempotent_on (a : AnalysisResult) (h : validContract a)
    (hcap : a.capacity ≠ 0) (hconf : a.confidence ≠ 0) (hreas : a.reasoning ≠ "") :
    validateResult (toRaw a) = a := by
  obtain ⟨hst, hc0, hc1, hf0, hf1⟩ := h
  simp only [validateResult, toRaw]
  cases a with
  | mk st cap conf reas =>
    simp only at hst hc0 hc1 hf0 hf1 hcap hconf hreas ⊢
    congr 1
    · rw [if_pos (List.elem_iff.mpr hst)]
    · simp only [jsOrNum, if_neg hcap]
      omega
    · simp only [jsOrNum, if_neg hconf]
      omega
    · simp only [jsOrStr, if_neg hreas]

/-- C9 witness: `validateResult` leaves the valid result
`(full, 120, 90, crowded)` unchanged. -/
theorem validateResult_idempotent_on_witness :
    validateResult (toRaw ⟨"full", 120, 90, "crowded"⟩) = ⟨"full", 120, 90, "crowded"⟩ :=
  validateResult_idempotent_on _ (by simp only [validContract]; decide) (by decide) (by decide)
    (by decide)

end Crowded

namespace Crowded

lemma runProviders_all_fail (img : String) (ps : List ProviderInst)
    (errors : List (String × String))
    (h : ∀ p ∈ ps, ∃ e, p.analyze img = Except.error e) :
    (runProviders img ps errors).1 =
      degradedResult (errors ++ ps.map (fun p => (p.name, errMsg img p))) := by
  induction ps generalizing errors with
  | nil => simp [runProviders]
  | cons p rest ih =>
    obtain ⟨e, he⟩ := h p (List.mem_cons_self p rest)
    have hm : errMsg img p = e := by simp [errMsg, he]
    simp only [runProviders, he]
    rw [ih (errors ++ [(p.name, e)]) (fun q hq => h q (List.mem_cons_of_mem p hq))]
    simp [hm, List.append_assoc]

/-- C2 (amended): when every provider fails, `analyzeCarriageImage`
returns — does not raise — a result with status `moderate`, capacity `50`,
confidence `0`, and reasoning equal to the fixed prefix
`All providers failed. Errors: ` followed by the semicolon-joined
per-provider `name: message` entries in provider order. -/
theorem analyzeCarriageImage_all_fail (img : String) (ps : List ProviderInst)
    (h : ∀ p ∈ ps, ∃ e, p.analyze img = Except.error e) :
    analyzeCarriageImage ps img =
      ⟨"moderate", 50, 0,
        "All providers failed. Errors: " ++
          String.intercalate "; " (ps.map (fun p => p.name ++ ": " ++ errMsg img p))⟩ := by
  unfold analyzeCarriageImage analyzeWithTrace
  rw [runProviders_all_fail img ps [] h]
  simp only [List.nil_append, degradedResult, List.map_map]
  rfl

/-- C2 witness: with `P1` failing with `timeout` and `P2` failing with
`bad key`, the degraded result carries the prefixed joined message. -/
theorem analyzeCarriageImage_all_fail_witness :
    analyzeCarriageImage [fxTimeout, fxBadKey] "img" =
      ⟨"moderate", 50, 0, "All providers failed. Errors: P1: timeout; P2: bad key"⟩ := by
  have h := analyzeCarriageImage_all_fail "img" [fxTimeout, fxBadKey] (by
    intro p hp
    rcases List.mem_cons.mp hp with rfl | hp2
    · exact ⟨"timeout", rfl⟩
    · rcases List.mem_cons.mp hp2 with rfl | hp3
      · exact ⟨"bad key", rfl⟩
      · cases hp3)
  rw [h]
  rfl

/-- C2 counterexample: in the all-fail case with messages `timeout` and
`bad key`, the reasoning is not the bare semicolon-joined summary
`P1: timeout; P2: bad key` — the code prepends
`All providers failed. Errors: `. -/
theorem analyzeCarriageImage_all_fail_cex :
    (analyzeCarriageImage [fxTimeout, fxBadKey] "img").reasoning ≠
      "P1: timeout; P2: bad key" ∧
    (analyzeCarriageImage [fxTimeout, fxBadKey] "img").reasoning =
      "All providers failed. Errors: P1: timeout; P2: bad key" := by
  constructor
  · decide
  · rfl

lemma runProviders_first_success (img : String) (p : ProviderInst)
    (r : AnalysisResult) (post pre : List ProviderInst)
    (errors : List (String × String))
    (hfail : ∀ q ∈ pre, ∃ e, q.analyze img = Except.error e)
    (hok : p.analyze img = Except.ok r) :
    runProviders img (pre ++ p :: post) errors =
      (r, pre.map ProviderInst.name ++ [p.name]) := by
  induction pre generalizing errors with
  | nil => simp [runProviders, hok]
  | cons q rest ih =>
    obtain ⟨e, he⟩ := hfail q (List.mem_cons_self q rest)
    simp only [List.cons_append, runProviders, he, List.append_eq]
    rw [ih (errors ++ [(q.name, e)]) (fun q' hq' => hfail q' (List.mem_cons_of_mem q hq'))]
    simp

/-- C1: for the ordered provider list assembled by `initializeProviders`,
`analyzeCarriageImage` tries providers from index 0 and returns the first
successful provider's result immediately; the invocation trace contains
exactly the failing prefix followed by the succeeding provider, so no
later provider is ever invoked. -/
theorem analyzeCarriageImage_first_success
    (reg : List (String × ProviderInst)) (primaryName : String)
    (fallbackName : Option String) (img : String)
    (ps pre post : List ProviderInst) (p : ProviderInst) (r : AnalysisResult)
    (hinit : initializeProviders reg primaryName fallbackName = Except.ok ps)
    (hsplit : ps = pre ++ p :: post)
    (hfail : ∀ q ∈ pre, ∃ e, q.analyze img = Except.error e)
    (hok : p.analyze img = Except.ok r) :
    analyzeWithTrace ps img = (r, pre.map ProviderInst.name ++ [p.name]) ∧
    analyzeCarriageImage ps img = r := by
  subst hsplit
  have h := runProviders_first_success img p r post pre [] hfail hok
  exact ⟨h, by simp [analyzeCarriageImage, analyzeWithTrace, h]⟩

/-- C1 witness: with registry order `p3, p1, p2`, primary `p1` (fails),
explicit fallback `p2` (succeeds) and registry-only `p3`, initialization
yields the order `P1, P2, P3`; the analysis returns `P2`'s result, the
trace is exactly `[P1, P2]`, and `P3` is never invoked. -/
theorem analyzeCarriageImage_first_success_witness :
    initializeProviders fxReg "p1" (some "p2") = Except.ok [fxP1, fxP2, fxP3] ∧
    analyzeWithTrace [fxP1, fxP2, fxP3] "img" = (fxP2res, ["P1", "P2"]) ∧
    analyzeCarriageImage [fxP1, fxP2, fxP3] "img" = fxP2res ∧
    "P3" ∉ ["P1", "P2"] := by
  have h := analyzeCarriageImage_first_success fxReg "p1" (some "p2") "img"
    [fxP1, fxP2, fxP3] [fxP1] [fxP3] fxP2 fxP2res rfl rfl
    (by
      intro q hq
      rcases List.mem_cons.mp hq with rfl | hq2
      · exact ⟨"boom", rfl⟩
      · cases hq2)
    rfl
  exact ⟨rfl, h.1, h.2, by decide⟩

end Crowded

namespace Crowded

lemma lookupReg_mem (reg : List (String × ProviderInst)) (k : String) (p : ProviderInst)
    (h : lookupReg reg k = some p) : (k, p) ∈ reg := by
  induction reg with
  | nil => cases h
  | cons kv rest ih =>
    obtain ⟨k', p'⟩ := kv
    by_cases hk : k' = k
    · subst hk
      simp [lookupReg] at h
      subst h
      exact List.mem_cons_self _ _
    · rw [show lookupReg ((k', p') :: rest) k = lookupReg rest k from by
        simp [lookupReg, hk]] at h
      exact List.mem_cons_of_mem _ (ih h)

lemma lookupReg_none (reg : List (String × ProviderInst)) (k : String)
    (h : lookupReg reg k = none) : ∀ kv ∈ reg, kv.1 ≠ k := by
  induction reg with
  | nil => intro kv hkv; cases hkv
  | cons kv' rest ih =>
    obtain ⟨k', p'⟩ := kv'
    intro kv hkv
    by_cases hk : k' = k
    · simp [lookupReg, hk] at h
    · simp only [lookupReg, if_neg hk] at h
      rcases List.mem_cons.mp hkv with rfl | hmem
      · exact hk
      · exact ih h kv hmem

lemma lookupReg_nodup_mem (reg : List (String × ProviderInst)) (k : String)
    (p : ProviderInst) (hnodup : (reg.map Prod.fst).Nodup) (hm : (k, p) ∈ reg) :
    lookupReg reg k = some p := by
  induction reg with
  | nil => cases hm
  | cons kv rest ih =>
    obtain ⟨k', p'⟩ := kv
    rcases List.mem_cons.mp hm with heq | hmem
    · cases heq
      simp [lookupReg]
    · by_cases hk : k' = k
      · exfalso
        subst hk
        have : k' ∈ rest.map Prod.fst := List.mem_map.mpr ⟨(k', p), hmem, rfl⟩
        exact (List.nodup_cons.mp hnodup).1 this
      · simp only [lookupReg, if_neg hk]
        exact ih (List.nodup_cons.mp hnodup).2 hmem

/-- C8: when no registered provider is both configured and enabled, the
ordered list is empty and `initializeProviders` throws at module startup,
so the list is never built and no analysis call can be served. -/
theorem initializeProviders_empty_error (reg : List (String × ProviderInst))
    (primaryName : String) (fallbackName : Option String)
    (h : ∀ kv ∈ reg, usable kv.2 = false) :
    initializeProviders reg primaryName fallbackName =
      Except.error "No AI providers configured. Please set up at least one provider in .env.local" := by
  have hpp : primaryPhase reg primaryName = [] := by
    cases hl : lookupReg reg primaryName with
    | none => simp [primaryPhase, hl]
    | some p => simp [primaryPhase, hl, h _ (lookupReg_mem _ _ _ hl)]
  have hfp : fallbackPhase reg primaryName fallbackName = [] := by
    cases fallbackName with
    | none => rfl
    | some fb =>
      by_cases hfb : fb = primaryName
      · simp [fallbackPhase, hfb]
      · cases hl : lookupReg reg fb with
        | none => simp [fallbackPhase, hfb, hl]
        | some p => simp [fallbackPhase, hfb, hl, h _ (lookupReg_mem _ _ _ hl)]
  have hop : otherPhase reg primaryName fallbackName = [] := by
    unfold otherPhase
    rw [List.filter_eq_nil_iff.mpr (fun kv hkv => by simp [h kv hkv])]
    rfl
  unfold initializeProviders buildProviderList
  rw [hpp, hfp, hop]
  rfl

/-- C8 witness: a registry whose only provider is unconfigured makes
initialization throw the startup error. -/
theorem initializeProviders_empty_error_witness :
    initializeProviders fxRegU "u" none =
      Except.error "No AI providers configured. Please set up at least one provider in .env.local" :=
  initializeProviders_empty_error fxRegU "u" none (by
    intro kv hkv
    rcases List.mem_cons.mp hkv with rfl | h2
    · rfl
    · cases h2)

/-- C10: when the configured primary identifier is not a registry key,
initialization skips it and builds the ordered list from the explicit
fallback phase followed by the remaining configured-and-enabled registered
providers; it succeeds whenever at least one registered provider is
usable. -/
theorem initializeProviders_unknown_primary (reg : List (String × ProviderInst))
    (primaryName : String) (fallbackName : Option String)
    (hnodup : (reg.map Prod.fst).Nodup)
    (hmiss : lookupReg reg primaryName = none)
    (hus : ∃ kv ∈ reg, usable kv.2 = true) :
    initializeProviders reg primaryName fallbackName =
      Except.ok (fallbackPhase reg primaryName fallbackName ++
        otherPhase reg primaryName fallbackName) := by
  have hpp : primaryPhase reg primaryName = [] := by
    simp [primaryPhase, hmiss]
  obtain ⟨⟨n, p⟩, hmem, hup⟩ := hus
  have hne : n ≠ primaryName := lookupReg_none reg primaryName hmiss (n, p) hmem
  have hother : ∀ fb, otherMatches primaryName fb n = true →
      p ∈ otherPhase reg primaryName fb := by
    intro fb hmatch
    exact List.mem_map.mpr ⟨(n, p), List.mem_filter.mpr ⟨hmem, by simp [hmatch, hup]⟩, rfl⟩
  have hnonempty : fallbackPhase reg primaryName fallbackName ++
      otherPhase reg primaryName fallbackName ≠ [] := by
    intro hcontra
    rw [List.append_eq_nil] at hcontra
    cases fallbackName with
    | none =>
      have hp := hother none (by simp [otherMatches, hne])
      rw [hcontra.2] at hp
      cases hp
    | some fb =>
      by_cases hfb : fb = n
      · subst hfb
        have hfbp : fallbackPhase reg primaryName (some fb) = [p] := by
          simp only [fallbackPhase]
          rw [if_neg (fun hc : fb = primaryName => hne hc)]
          rw [lookupReg_nodup_mem reg fb p hnodup hmem]
          simp [hup]
        rw [hfbp] at hcontra
        cases hcontra.1
      · have hnf : n ≠ fb := fun hc => hfb hc.symm
        have hp := hother (some fb) (by simp [otherMatches, hne, hnf])
        rw [hcontra.2] at hp
        cases hp
  unfold initializeProviders buildProviderList
  rw [hpp, List.nil_append]
  rw [if_neg (by simpa [List.isEmpty_iff] using hnonempty)]

/-- C10 witness: primary `nope` is not registered, yet startup succeeds
with the single usable registered provider. -/
theorem initializeProviders_unknown_primary_witness :
    initializeProviders fxRegQ "nope" none = Except.ok [fxQ1] := by
  have h := initializeProviders_unknown_primary fxRegQ "nope" none
    (by simp [fxRegQ])
    rfl
    ⟨("q1", fxQ1), by simp [fxRegQ], rfl⟩
  rw [h]
  rfl

end Crowded

namespace Crowded

lemma snAnalyzeImage_state (s : SNState) (net : Nat → Except String String)
    (hn : 0 < s.apiKeys.length) :
    (snAnalyzeImage s net).2 = ⟨s.apiKeys, (s.currentKeyIndex + 1) % s.apiKeys.length⟩ := by
  cases s with
  | mk keys idx =>
    have hcfg : snIsConfigured ⟨keys, idx⟩ = true := by
      simp only [snIsConfigured, decide_eq_true_eq]
      exact hn
    cases hnet : net idx with
    | error e => simp [snAnalyzeImage, hcfg, rotateKey, hnet]
    | ok t => simp [snAnalyzeImage, hcfg, rotateKey, hnet]

/-- C6: every `analyzeImage` call on a configured SambaNova provider
advances the rotation pointer by exactly one position modulo the pool
size, independent of the call's outcome, keeps the pool unchanged, keeps
the pointer inside `[0, n)`, and a 3-credential provider invoked 5 times
uses key indices `0, 1, 2, 0, 1` exactly. -/
theorem snAnalyzeImage_rotation
    (s : SNState) (net n1 n2 n3 n4 n5 : Nat → Except String String)
    (keys : List String) (hn : 0 < s.apiKeys.length) (hkeys : keys.length = 3) :
    ((snAnalyzeImage s net).2.currentKeyIndex = (s.currentKeyIndex + 1) % s.apiKeys.length ∧
     (snAnalyzeImage s net).2.apiKeys = s.apiKeys ∧
     (snAnalyzeImage s net).2.currentKeyIndex < s.apiKeys.length) ∧
    usedKeys ⟨keys, 0⟩ [n1, n2, n3, n4, n5] = [0, 1, 2, 0, 1] := by
  constructor
  · rw [snAnalyzeImage_state s net hn]
    exact ⟨rfl, rfl, Nat.mod_lt _ hn⟩
  · have h3 : 0 < keys.length := by omega
    have hstep : ∀ (nt : Nat → Except String String) (i : Nat),
        (snAnalyzeImage ⟨keys, i⟩ nt).2 = ⟨keys, (i + 1) % 3⟩ := by
      intro nt i
      rw [snAnalyzeImage_state ⟨keys, i⟩ nt h3]
      simp [hkeys]
    have hcfg : ∀ i : Nat, snIsConfigured ⟨keys, i⟩ = true := by
      intro i
      simp only [snIsConfigured, decide_eq_true_eq]
      exact h3
    simp only [usedKeys, hcfg, if_true, hstep, rotateKey]

/-- C6 witness: a 2-credential provider at pointer 0 advances to 1 on one
call, and a fresh 3-credential provider invoked 5 times uses key indices
`0, 1, 2, 0, 1`. -/
theorem snAnalyzeImage_rotation_witness :
    (snAnalyzeImage ⟨["a", "b"], 0⟩ (fun _ => Except.error "x")).2.currentKeyIndex = 1 ∧
    usedKeys ⟨["k1", "k2", "k3"], 0⟩
      [fun _ => Except.error "x", fun _ => Except.ok "y", fun _ => Except.error "x",
       fun _ => Except.error "x", fun _ => Except.ok "z"] = [0, 1, 2, 0, 1] := by
  have h := snAnalyzeImage_rotation ⟨["a", "b"], 0⟩ (fun _ => Except.error "x")
    (fun _ => Except.error "x") (fun _ => Except.ok "y") (fun _ => Except.error "x")
    (fun _ => Except.error "x") (fun _ => Except.ok "z") ["k1", "k2", "k3"]
    (by decide) rfl
  refine ⟨?_, h.2⟩
  rw [h.1.1]
  rfl

end Crowded

namespace Crowded

lemma firstIdx_eq_none_iff (p : Char → Bool) (cs : List Char) :
    firstIdx p cs = none ↔ ∀ c ∈ cs, p c = false := by
  induction cs with
  | nil => simp [firstIdx]
  | cons c cs ih =>
    by_cases hc : p c
    · simp [firstIdx, hc]
    · simp only [firstIdx, if_neg hc, Option.map_eq_none', ih, List.mem_cons]
      constructor
      · intro h c' hc'
        rcases hc' with rfl | hmem
        · exact Bool.eq_false_iff.mpr hc
        · exact h c' hmem
      · intro h c' hmem
        exact h c' (Or.inr hmem)

lemma firstIdx_lt_length (p : Char → Bool) (cs : List Char) (i : Nat)
    (h : firstIdx p cs = some i) : i < cs.length := by
  induction cs generalizing i with
  | nil => cases h
  | cons c cs ih =>
    by_cases hc : p c
    · simp only [firstIdx, if_pos hc, Option.some.injEq] at h
      simp only [List.length_cons]
      omega
    · simp only [firstIdx, if_neg hc, Option.map_eq_some'] at h
      obtain ⟨j, hj, rfl⟩ := h
      have := ih j hj
      simp only [List.length_cons]
      omega

lemma firstIdx_get (p : Char → Bool) (cs : List Char) (i : Nat)
    (h : firstIdx p cs = some i) : ∃ c, cs.get? i = some c ∧ p c = true := by
  induction cs generalizing i with
  | nil => cases h
  | cons c cs ih =>
    by_cases hc : p c
    · simp only [firstIdx, if_pos hc, Option.some.injEq] at h
      subst h
      exact ⟨c, rfl, hc⟩
    · simp only [firstIdx, if_neg hc, Option.map_eq_some'] at h
      obtain ⟨j, hj, rfl⟩ := h
      obtain ⟨c', hc', hp⟩ := ih j hj
      exact ⟨c', hc', hp⟩

lemma firstIdx_min (p : Char → Bool) (cs : List Char) (i : Nat)
    (h : firstIdx p cs = some i) :
    ∀ k c, cs.get? k = some c → p c = true → i ≤ k := by
  induction cs generalizing i with
  | nil => cases h
  | cons c cs ih =>
    intro k c' hk hp
    by_cases hc : p c
    · simp only [firstIdx, if_pos hc, Option.some.injEq] at h
      omega
    · simp only [firstIdx, if_neg hc, Option.map_eq_some'] at h
      obtain ⟨j, hj, rfl⟩ := h
      cases k with
      | zero =>
        simp only [List.get?] at hk
        cases hk
        rw [hp] at hc
        cases hc rfl
      | succ k' =>
        simp only [List.get?] at hk
        have := ih j hj k' c' hk hp
        omega

lemma lastIdx_get (p : Char → Bool) (cs : List Char) (j : Nat)
    (h : lastIdx p cs = some j) : ∃ c, cs.get? j = some c ∧ p c = true := by
  simp only [lastIdx, Option.map_eq_some'] at h
  obtain ⟨k0, hk0, rfl⟩ := h
  have hlt : k0 < cs.reverse.length := firstIdx_lt_length _ _ _ hk0
  rw [List.length_reverse] at hlt
  obtain ⟨c, hc, hp⟩ := firstIdx_get _ _ _ hk0
  rw [List.get?_reverse hlt] at hc
  exact ⟨c, hc, hp⟩

lemma lastIdx_max (p : Char → Bool) (cs : List Char) (j : Nat)
    (h : lastIdx p cs = some j) :
    ∀ k c, cs.get? k = some c → p c = true → k ≤ j := by
  simp only [lastIdx, Option.map_eq_some'] at h
  obtain ⟨k0, hk0, rfl⟩ := h
  intro k c hk hp
  have hklen : k < cs.length := (List.get?_eq_some.mp hk).1
  have hrev : cs.reverse.get? (cs.length - 1 - k) = some c := by
    have hlen : cs.length - 1 - k < cs.length := by omega
    rw [List.get?_reverse hlen]
    have harith : cs.length - 1 - (cs.length - 1 - k) = k := by omega
    rw [harith]
    exact hk
  have := firstIdx_min _ _ _ hk0 (cs.length - 1 - k) c hrev hp
  omega

lemma firstIdx_of_exists (p : Char → Bool) (cs : List Char)
    (h : ∃ k c, cs.get? k = some c ∧ p c = true) : firstIdx p cs ≠ none := by
  obtain ⟨k, c, hk, hp⟩ := h
  intro hall
  rw [firstIdx_eq_none_iff] at hall
  rw [hall c (List.get?_mem hk)] at hp
  cases hp

lemma lastIdx_of_exists (p : Char → Bool) (cs : List Char)
    (h : ∃ k c, cs.get? k = some c ∧ p c = true) : lastIdx p cs ≠ none := by
  obtain ⟨k, c, hk, hp⟩ := h
  intro hall
  cases hfi : firstIdx p cs.reverse with
  | some k0 => rw [lastIdx, hfi] at hall; cases hall
  | none =>
    rw [firstIdx_eq_none_iff] at hfi
    have hmem : c ∈ cs.reverse := List.mem_reverse.mpr (List.get?_mem hk)
    rw [hfi c hmem] at hp
    cases hp

lemma extractJson_eq_none_iff (text : String) :
    extractJson text = none ↔ ¬ hasBraceSpan text := by
  unfold extractJson hasBraceSpan
  cases hf : firstIdx (fun c => c = '\x7b') text.data with
  | none =>
    simp only [true_iff]
    intro hspan
    obtain ⟨i, j, hij, hi, hj⟩ := hspan
    exact firstIdx_of_exists _ _ ⟨i, '\x7b', hi, by simp⟩ hf
  | some i =>
    cases hl : lastIdx (fun c => c = '\x7d') text.data with
    | none =>
      simp only [true_iff]
      intro hspan
      obtain ⟨i', j', hij', hi', hj'⟩ := hspan
      exact lastIdx_of_exists _ _ ⟨j', '\x7d', hj', by simp⟩ hl
    | some j =>
      dsimp only
      by_cases hij : i < j
      · rw [if_pos hij]
        simp only [reduceCtorEq, false_iff, not_not]
        obtain ⟨ci, hci, hpi⟩ := firstIdx_get _ _ _ hf
        obtain ⟨cj, hcj, hpj⟩ := lastIdx_get _ _ _ hl
        have hci' : ci = '\x7b' := by simpa using hpi
        have hcj' : cj = '\x7d' := by simpa using hpj
        subst hci'
        subst hcj'
        exact ⟨i, j, hij, hci, hcj⟩
      · rw [if_neg hij]
        simp only [true_iff]
        intro hspan
        obtain ⟨i', j', hij', hi', hj'⟩ := hspan
        have h1 : i ≤ i' := firstIdx_min _ _ _ hf i' '\x7b' hi' (by simp)
        have h2 : j' ≤ j := lastIdx_max _ _ _ hl j' '\x7d' hj' (by simp)
        omega

lemma snAnalyzeImage_result_ok (s : SNState) (text : String)
    (hn : 0 < s.apiKeys.length) :
    (snAnalyzeImage s (fun _ => Except.ok text)).1 = parseProviderResponse text := by
  cases s with
  | mk keys idx =>
    have hcfg : snIsConfigured ⟨keys, idx⟩ = true := by
      simp only [snIsConfigured, decide_eq_true_eq]
      exact hn
    simp [snAnalyzeImage, hcfg, rotateKey]

/-- C7 (amended): for a configured provider whose backend call returns
`text`, `analyzeImage` fails with the extract error
(`Failed to extract JSON from response`) exactly when `text` has no
substring from its first `{` to its last `}`; when that substring exists
but is not valid JSON, the failure carries the JSON parser's own
engine-defined message instead. -/
theorem snAnalyzeImage_extract_error_iff (s : SNState) (text : String)
    (hn : 0 < s.apiKeys.length) :
    (snAnalyzeImage s (fun _ => Except.ok text)).1 =
        Except.error ProviderError.extractFailed ↔
      ¬ hasBraceSpan text := by
  rw [snAnalyzeImage_result_ok s text hn, ← extractJson_eq_none_iff]
  unfold parseProviderResponse
  cases hext : extractJson text with
  | none => simp
  | some js =>
    have hr : (some js = none) ↔ False := by simp
    rw [hr, iff_false]
    dsimp only
    cases hp : parseJson js with
    | none => simp
    | some j => simp

/-- C7 counterexample: for the response text consisting of the single
brace-to-brace substring `(not json)`, the extraction succeeds but
`JSON.parse` fails, so `analyzeImage` fails with the parser's error, not
with the `Failed to extract JSON from response` message the claim
requires for every invalid-JSON substring. -/
theorem snAnalyzeImage_extract_error_cex :
    extractJson "\x7bnot json\x7d" = some "\x7bnot json\x7d" ∧
    parseJson "\x7bnot json\x7d" = none ∧
    (snAnalyzeImage ⟨["k"], 0⟩ (fun _ => Except.ok "\x7bnot json\x7d")).1 =
      Except.error ProviderError.jsonParseFailed ∧
    ProviderError.jsonParseFailed ≠ ProviderError.extractFailed := by
  refine ⟨rfl, rfl, rfl, by decide⟩

/-- C7 witness: a configured single-key provider receiving a brace-free
response fails with the extract error. -/
theorem snAnalyzeImage_extract_error_iff_witness :
    (snAnalyzeImage ⟨["k"], 0⟩ (fun _ => Except.ok "no json here")).1 =
      Except.error ProviderError.extractFailed :=
  (snAnalyzeImage_extract_error_iff ⟨["k"], 0⟩ "no json here" (by decide)).mpr
    ((extractJson_eq_none_iff "no json here").mp rfl)

end Crowded

namespace Crowded

lemma firstIdx_append_of_forall (p : Char → Bool) (l₁ l₂ : List Char)
    (h : ∀ c ∈ l₁, p c = false) :
    firstIdx p (l₁ ++ l₂) = (firstIdx p l₂).map (· + l₁.length) := by
  induction l₁ with
  | nil =>
    cases hf : firstIdx p l₂ <;> simp [hf]
  | cons c l₁ ih =>
    have hc : p c = false := h c (List.mem_cons_self _ _)
    simp only [List.cons_append, firstIdx, hc, Bool.false_eq_true, if_false, List.append_eq]
    rw [ih (fun c' hc' => h c' (List.mem_cons_of_mem _ hc'))]
    cases hf : firstIdx p l₂ with
    | none => simp
    | some k => simp [Nat.add_assoc]

lemma firstIdx_append_some (p : Char → Bool) (l₁ l₂ : List Char) (i : Nat)
    (h : firstIdx p l₁ = some i) : firstIdx p (l₁ ++ l₂) = some i := by
  induction l₁ generalizing i with
  | nil => cases h
  | cons c l₁ ih =>
    by_cases hc : p c
    · simp only [firstIdx, if_pos hc, Option.some.injEq] at h
      simp only [List.cons_append, firstIdx, if_pos hc]
      rw [h]
    · simp only [firstIdx, if_neg hc, Option.map_eq_some'] at h
      obtain ⟨k, hk, rfl⟩ := h
      simp only [List.cons_append, firstIdx, if_neg hc, List.append_eq]
      rw [ih k hk]
      rfl

lemma extractJson_embed (pre post : String)
    (hpre : ∀ c ∈ pre.data, c ≠ '\x7b')
    (hpost : ∀ c ∈ post.data, c ≠ '\x7d') :
    extractJson (pre ++ jsonLit ++ post) = some jsonLit := by
  have hdata : (pre ++ jsonLit ++ post).data = pre.data ++ (jsonLit.data ++ post.data) := by
    rw [show (pre ++ jsonLit ++ post).data = (pre.data ++ jsonLit.data) ++ post.data from rfl]
    exact List.append_assoc _ _ _
  have hpre' : ∀ c ∈ pre.data, (fun c => decide (c = '\x7b')) c = false :=
    fun c hc => decide_eq_false (hpre c hc)
  have hjson0 : firstIdx (fun c => c = '\x7b') jsonLit.data = some 0 := rfl
  have hf : firstIdx (fun c => c = '\x7b') (pre.data ++ (jsonLit.data ++ post.data)) =
      some pre.data.length := by
    rw [firstIdx_append_of_forall _ _ _ hpre']
    rw [firstIdx_append_some _ _ _ _ hjson0]
    simp
  have hrev : (pre.data ++ (jsonLit.data ++ post.data)).reverse =
      post.data.reverse ++ (jsonLit.data.reverse ++ pre.data.reverse) := by
    simp [List.reverse_append, List.append_assoc]
  have hpost' : ∀ c ∈ post.data.reverse, (fun c => decide (c = '\x7d')) c = false :=
    fun c hc => decide_eq_false (hpost c (List.mem_reverse.mp hc))
  have hjrev : firstIdx (fun c => c = '\x7d') jsonLit.data.reverse = some 0 := rfl
  have hl : lastIdx (fun c => c = '\x7d') (pre.data ++ (jsonLit.data ++ post.data)) =
      some (pre.data.length + 69) := by
    unfold lastIdx
    rw [hrev]
    rw [firstIdx_append_of_forall _ _ _ hpost']
    rw [firstIdx_append_some _ _ _ _ hjrev]
    simp only [Option.map_some', List.length_reverse, List.length_append, Nat.zero_add]
    congr 1
    rw [show jsonLit.data.length = 70 from rfl]
    omega
  unfold extractJson
  rw [hdata, hf]
  dsimp only
  rw [hl]
  dsimp only
  rw [if_pos (by omega)]
  have harg : pre.data.length + 69 - pre.data.length + 1 = 70 := by omega
  rw [harg, List.drop_left]
  rw [show (70 : Nat) = jsonLit.data.length from rfl, List.take_left]

/-- C5 (amended): a backend response embedding the well-formed JSON object
inside prose parses to exactly `(full, 120, 90, crowded)` provided the
surrounding prose itself contains no stray brace on the wrong side: no `{`
before the object and no `}` after it (the greedy first-`{`-to-last-`}`
scan then isolates exactly the object). -/
theorem parseProviderResponse_roundtrip (pre post : String)
    (hpre : ∀ c ∈ pre.data, c ≠ '\x7b')
    (hpost : ∀ c ∈ post.data, c ≠ '\x7d') :
    parseProviderResponse (pre ++ jsonLit ++ post) =
      Except.ok ⟨"full", 120, 90, "crowded"⟩ := by
  unfold parseProviderResponse
  rw [extractJson_embed pre post hpre hpost]
  rfl

/-- C5 witness: the object embedded in brace-free prose parses to exactly
the expected result. -/
theorem parseProviderResponse_roundtrip_witness :
    parseProviderResponse ("Sure! " ++ jsonLit ++ " Thanks.") =
      Except.ok ⟨"full", 120, 90, "crowded"⟩ :=
  parseProviderResponse_roundtrip "Sure! " " Thanks." (by decide) (by decide)

/-- C5 counterexample: with a stray `{` in the prose before the object,
the greedy scan grabs both braces, `JSON.parse` fails, and the call does
not produce the expected result — so the round-trip does not hold for
arbitrary surrounding prose. -/
theorem parseProviderResponse_roundtrip_cex :
    parseProviderResponse ("Sure! \x7b" ++ jsonLit ++ "") =
      Except.error ProviderError.jsonParseFailed ∧
    (Except.error ProviderError.jsonParseFailed :
        Except ProviderError AnalysisResult) ≠
      Except.ok ⟨"full", 120, 90, "crowded"⟩ := by
  refine ⟨rfl, by simp⟩

end Crowded
